import Mathlib

/-!
Shallow embedding of the binomial heap of src/binomial_heap.h (the header is the
authoritative, compiled implementation; src/binomial_heap.cpp is an abandoned
draft that does not compile) together with the sort routine of src/heap_sort.h.

Nodes live in an arena keyed by natural-number ids, modelling the C++ free
store: a node pointer is an id, the null pointer is Option.none, and deleting a
node removes its id from the arena, so a later dereference of a stale id fails.
Dereferencing null or freed memory is undefined behaviour in the C++ program
and is modelled by the error value Err.undefined; the two exception paths the
code actually has (throw std::out_of_range, throw std::invalid_argument) are
modelled by Err.outOfRange and Err.invalidArgument.

Keys are Int and the comparator is an explicit Bool-valued function stored in
the heap object, mirroring the Comp template parameter captured at
construction; concrete runs use intLess, the embedding of std::less of int.
-/

namespace BinHeap

/-- Failure modes of the embedded operations. outOfRange and invalidArgument
model the two thrown exceptions of the C++ code; undefined models undefined
behaviour (dereference of a null pointer or of freed memory). -/
inductive Err where
  | outOfRange
  | invalidArgument
  | undefined
deriving DecidableEq

/-- Embeds binomial_heap::node (binomial_heap.h lines 80 to 99): a key, the
ordered child list (as arena ids) and the parent pointer (an optional id). -/
structure Node where
  key : Int
  children : List Nat
  parent : Option Nat
deriving DecidableEq

/-- Embeds the binomial_heap object (binomial_heap.h lines 96 to 99): the
captured comparator, the root list trees, the cached minimum pointer and the
element count, plus the arena that models the free store and the next fresh
address. -/
structure Heap where
  compare : Int → Int → Bool
  arena : List (Nat × Node)
  nextId : Nat
  trees : List Nat
  minPtr : Option Nat
  size : Nat

/-- Embeds std::less of int, the default comparator of the template. -/
def intLess (a b : Int) : Bool := decide (a < b)

/-- Dereference of a node pointer: none when the id was never allocated or was
freed (in C++ such a dereference is undefined behaviour). -/
def lookupNode (h : Heap) (i : Nat) : Option Node :=
  (h.arena.find? (fun p => p.1 == i)).map Prod.snd

/-- In-place update of the node at id i, modelling mutation through a pointer. -/
def updateNode (h : Heap) (i : Nat) (n : Node) : Heap :=
  { h with arena := h.arena.map (fun p => if p.1 == i then (i, n) else p) }

/-- Removal of the node at id i from the arena, modelling operator delete. -/
def eraseNode (h : Heap) (i : Nat) : Heap :=
  { h with arena := h.arena.filter (fun p => p.1 != i) }

/-- Embeds the default constructor (binomial_heap.h lines 278 to 282): captured
comparator, no trees, null cached minimum, size zero. -/
def emptyHeap (cmp : Int → Int → Bool) : Heap :=
  { compare := cmp, arena := [], nextId := 0, trees := [], minPtr := none, size := 0 }

/-- The empty heap over std::less of int used by the concrete runs. -/
def H0 : Heap := emptyHeap intLess

/-- Embeds node::promote (binomial_heap.h lines 252 to 265): of two tree roots
a (this) and b (to_merge), the one with the lesser key under compare takes the
other as its last child and becomes the parent of the other; returns the
updated heap and the surviving root id. -/
def promote (h : Heap) (a b : Nat) : Except Err (Heap × Nat) :=
  match lookupNode h a, lookupNode h b with
  | some na, some nb =>
    if h.compare na.key nb.key then
      .ok (updateNode (updateNode h a { na with children := na.children ++ [b] })
             b { nb with parent := some a }, a)
    else
      .ok (updateNode (updateNode h b { nb with children := nb.children ++ [a] })
             a { na with parent := some b }, b)
  | _, _ => .error .undefined

/-- Embeds the loop of binomial_heap::zip (binomial_heap.h lines 593 to 604).
acc holds, reversed, the roots already passed; rest starts at the iterator
position. When the first root has more children than the second the two are
swapped and the iterator advances (the equality test after the swap cannot
hold); when the child counts are equal the two roots are promoted into one and
the loop re-examines the merged root against its new neighbour; otherwise the
iterator advances. -/
def zipGo (h : Heap) (acc : List Nat) : Nat → List Nat → Except Err Heap
  | fuel + 1, a :: b :: tl =>
    match lookupNode h a, lookupNode h b with
    | some na, some nb =>
      if nb.children.length < na.children.length then
        zipGo h (b :: acc) fuel (a :: tl)
      else if na.children.length == nb.children.length then
        match promote h a b with
        | .ok (h2, m) => zipGo h2 acc fuel (m :: tl)
        | .error e => .error e
      else
        zipGo h (a :: acc) fuel (b :: tl)
    | _, _ => .error .undefined
  | _, rest => .ok { h with trees := acc.reverse ++ rest }

/-- Embeds binomial_heap::zip (binomial_heap.h lines 593 to 604). The loop is
entered with fuel equal to the length of the root list; every iteration
shortens the remaining list by exactly one while consuming one unit of fuel,
so the fuel cannot run out while two roots remain and the fuel pattern of
zipGo never cuts the loop short. -/
def zip (h : Heap) : Except Err Heap := zipGo h [] h.trees.length h.trees

/-- Embeds the loop of binomial_heap::fast_zip (binomial_heap.h lines 610 to
620): the iterator never advances, so only the front pair is examined; equal
child counts promote and the loop continues at the front, a differing pair
stops the whole pass. -/
def fastZipGo (h : Heap) : Nat → List Nat → Except Err Heap
  | fuel + 1, a :: b :: tl =>
    match lookupNode h a, lookupNode h b with
    | some na, some nb =>
      if na.children.length == nb.children.length then
        match promote h a b with
        | .ok (h2, m) => fastZipGo h2 fuel (m :: tl)
        | .error e => .error e
      else .ok { h with trees := a :: b :: tl }
    | _, _ => .error .undefined
  | _, rest => .ok { h with trees := rest }

/-- Embeds binomial_heap::fast_zip (binomial_heap.h lines 610 to 620). The
loop is entered with fuel equal to the length of the root list; every
promotion shortens the list by one while consuming one unit of fuel, so the
fuel cannot run out while two roots remain and the fuel pattern of fastZipGo
never cuts the loop short. -/
def fastZip (h : Heap) : Except Err Heap := fastZipGo h h.trees.length h.trees

/-- Embeds std::list::merge called in merge_lists (binomial_heap.h line 630)
with the comparator on child counts: a stable merge that takes the element of
the right list exactly when its child count is strictly smaller. -/
def mergeListsGo (h : Heap) : Nat → List Nat → List Nat → Except Err (List Nat)
  | _, xs, [] => .ok xs
  | _, [], ys => .ok ys
  | fuel + 1, a :: xs2, b :: ys2 =>
    match lookupNode h a, lookupNode h b with
    | some na, some nb =>
      if nb.children.length < na.children.length then
        (mergeListsGo h fuel (a :: xs2) ys2).map (fun r => b :: r)
      else
        (mergeListsGo h fuel xs2 (b :: ys2)).map (fun r => a :: r)
    | _, _ => .error .undefined
  | 0, _ :: _, _ :: _ => .error .undefined

/-- Embeds binomial_heap::merge_lists (binomial_heap.h lines 626 to 632):
merges the root list with rhs by child count, then runs the full zip. The
merge loop is entered with fuel equal to the sum of the two lengths; every
iteration consumes one element and one unit of fuel, so the fuel cannot run
out while both lists are non-empty and the zero-fuel branch of mergeListsGo is
unreachable. -/
def merge_lists (h : Heap) (rhs : List Nat) : Except Err Heap :=
  match mergeListsGo h (h.trees.length + rhs.length) h.trees rhs with
  | .ok merged => zip { h with trees := merged }
  | .error e => .error e

/-- Embeds the scan loop of binomial_heap::set_min (binomial_heap.h line 587):
cur is the best root so far, rest the roots still to visit. -/
def setMinGo (h : Heap) (cur : Nat) (rest : List Nat) : Except Err Nat :=
  match rest with
  | [] => .ok cur
  | t :: tl =>
    match lookupNode h t, lookupNode h cur with
    | some nt, some nc =>
      if h.compare nt.key nc.key then setMinGo h t tl else setMinGo h cur tl
    | _, _ => .error .undefined

/-- Embeds binomial_heap::set_min (binomial_heap.h lines 583 to 588): null
cached minimum when the root list is empty, otherwise the front root refined by
a scan over the whole root list. -/
def set_min (h : Heap) : Except Err Heap :=
  match h.trees with
  | [] => .ok { h with minPtr := none }
  | t :: _ =>
    match setMinGo h t h.trees with
    | .ok m => .ok { h with minPtr := some m }
    | .error e => .error e

/-- Embeds binomial_heap::iter_insert (binomial_heap.h lines 461 to 470);
binomial_heap::insert (lines 431 to 439) has the identical body without the
returned iterator. Note the faithful transcription of line 467: the update
test is compare(new_tree->key, key), which compares the inserted key with
itself, not with the key of the cached minimum. -/
def iter_insert (h : Heap) (key : Int) : Except Err (Heap × Nat) :=
  let i := h.nextId
  let h1 : Heap := { h with
    size := h.size + 1,
    arena := (i, { key := key, children := [], parent := none }) :: h.arena,
    nextId := i + 1,
    trees := i :: h.trees }
  let h2 : Heap :=
    match h1.minPtr with
    | none => { h1 with minPtr := some i }
    | some _ => if h1.compare key key then { h1 with minPtr := some i } else h1
  match fastZip h2 with
  | .ok h3 => .ok (h3, i)
  | .error e => .error e

/-- Embeds binomial_heap::insert (binomial_heap.h lines 431 to 439), the form
called by multi_insert: iter_insert without the returned iterator. -/
def insertKey (h : Heap) (key : Int) : Except Err Heap :=
  (iter_insert h key).map Prod.fst

/-- Embeds binomial_heap::multi_insert (binomial_heap.h lines 514 to 518) and
the range constructor (lines 290 to 296): inserts the elements in order. -/
def multi_insert (h : Heap) : List Int → Except Err Heap
  | [] => .ok h
  | k :: ks =>
    match insertKey h k with
    | .ok h2 => multi_insert h2 ks
    | .error e => .error e

/-- Embeds binomial_heap::min (binomial_heap.h lines 382 to 386): the key of
the cached minimum when the pointer is non-null, otherwise the thrown
std::out_of_range; a non-null pointer to freed memory is undefined behaviour. -/
def minOp (h : Heap) : Except Err Int :=
  match h.minPtr with
  | some m =>
    match lookupNode h m with
    | some n => .ok n.key
    | none => .error .undefined
  | none => .error .outOfRange

/-- Embeds binomial_heap::extract (binomial_heap.h lines 392 to 402). There is
no emptiness check: the first statement reads through the cached minimum
pointer, so on an empty heap the null pointer is dereferenced. Then the cached
minimum id is removed from the root list (std::list::remove, a no-op when the
id is not a root), its children are spliced in by merge_lists followed by the
full zip, the node is deleted with its child list already detached, set_min
recomputes the cached minimum, and the size is decremented. -/
def extract (h : Heap) : Except Err (Int × Heap) :=
  match h.minPtr with
  | none => .error .undefined
  | some m =>
    match lookupNode h m with
    | none => .error .undefined
    | some mn =>
      let minVal := mn.key
      let h1 := { h with trees := h.trees.filter (fun t => t != m) }
      match merge_lists h1 mn.children with
      | .error e => .error e
      | .ok h2 =>
        let h3 := eraseNode h2 m
        match set_min h3 with
        | .error e => .error e
        | .ok h4 => .ok (minVal, { h4 with size := h4.size - 1 })

/-- Embeds the while loop of binomial_heap::decrease_key (binomial_heap.h
lines 554 to 557): while the walker has a parent whose key is greater than the
new key, the parent field of the walker is reassigned to the grandparent. The
body of the loop is only that reassignment; the swap announced by the comment
on line 555 is not implemented, so neither child lists nor the root list nor
any key other than the walker key change. The fuel bounds the walk; it exceeds
the length of any acyclic parent chain, and running out models a
non-terminating walk through a corrupted chain as undefined behaviour. -/
def bubbleGo (walker : Nat) (newKey : Int) : Nat → Heap → Except Err Heap
  | 0, _ => .error .undefined
  | fuel + 1, h =>
    match lookupNode h walker with
    | none => .error .undefined
    | some w =>
      match w.parent with
      | none => .ok h
      | some p =>
        match lookupNode h p with
        | none => .error .undefined
        | some pn =>
          if h.compare newKey pn.key then
            bubbleGo walker newKey fuel (updateNode h walker { w with parent := pn.parent })
          else .ok h

/-- Embeds binomial_heap::decrease_key (binomial_heap.h lines 546 to 558): the
new key must be strictly lesser than the current key under compare, otherwise
std::invalid_argument is thrown (an equivalent new key is rejected); then the
key of the node is overwritten and the parent-reassignment loop runs. -/
def decrease_key (h : Heap) (it : Nat) (newKey : Int) : Except Err Heap :=
  match lookupNode h it with
  | none => .error .undefined
  | some nd =>
    if h.compare newKey nd.key then
      bubbleGo it newKey (h.arena.length + 1) (updateNode h it { nd with key := newKey })
    else .error .invalidArgument

/-- Embeds binomial_heap::remove (binomial_heap.h lines 564 to 568):
decrease_key of the handle to the key read through the cached minimum pointer,
then extract. The extracted value, discarded by the C++ code, is kept in the
result so that theorems can talk about which key was removed. -/
def removeOp (h : Heap) (it : Nat) : Except Err (Int × Heap) :=
  match h.minPtr with
  | none => .error .undefined
  | some m =>
    match lookupNode h m with
    | none => .error .undefined
    | some mn =>
      match decrease_key h it mn.key with
      | .ok h2 => extract h2
      | .error e => .error e

/-- Renames the ids of a node by a constant offset. Used when two heaps are
merged: in C++ the two objects allocate in one shared address space with
disjoint addresses, while each embedded heap numbers its nodes from zero, so
the donor ids are shifted past the receiver ids before the arenas are joined.
The shift is a bijective renaming of abstract addresses and changes no
observable structure. -/
def rebaseNode (off : Nat) (n : Node) : Node :=
  { n with children := n.children.map (fun c => c + off),
           parent := n.parent.map (fun p => p + off) }

/-- Renames every id of a heap by a constant offset; see rebaseNode. -/
def rebase (off : Nat) (h : Heap) : Heap :=
  { h with arena := h.arena.map (fun p => (p.1 + off, rebaseNode off p.2)),
           nextId := h.nextId + off,
           trees := h.trees.map (fun t => t + off),
           minPtr := h.minPtr.map (fun m => m + off) }

/-- Embeds the rvalue binomial_heap::merge (binomial_heap.h lines 419 to 424):
the sizes are added, then compare(rhs._min->key, _min->key) is evaluated,
dereferencing both cached minimum pointers with no null check, the cached
minimum becomes the lesser of the two, and merge_lists splices the donor root
list in. The donor arena is joined into the receiver arena (after the id
shift) to model the shared address space. -/
def mergeMove (h rhsIn : Heap) : Except Err Heap :=
  let rhs := rebase h.nextId rhsIn
  let h1 : Heap := { h with
    size := h.size + rhs.size,
    arena := h.arena ++ rhs.arena,
    nextId := rhs.nextId }
  match rhs.minPtr with
  | none => .error .undefined
  | some rm =>
    match lookupNode h1 rm with
    | none => .error .undefined
    | some rmn =>
      match h1.minPtr with
      | none => .error .undefined
      | some m =>
        match lookupNode h1 m with
        | none => .error .undefined
        | some mn =>
          let h2 := if h1.compare rmn.key mn.key then { h1 with minPtr := some rm } else h1
          merge_lists h2 rhs.trees

/-- Embeds the lvalue binomial_heap::merge (binomial_heap.h lines 408 to 413):
the comparator of the donor is saved, the rvalue merge consumes the donor, and
the donor is reassigned a fresh empty heap with the saved comparator. Returns
the pair (receiver, donor) after the call. -/
def mergeRef (h rhs : Heap) : Except Err (Heap × Heap) :=
  match mergeMove h rhs with
  | .ok h2 => .ok (h2, emptyHeap rhs.compare)
  | .error e => .error e

/-- Frees every node reachable from the given worklist of ids, modelling the
recursive node destructor (binomial_heap.h lines 212 to 223) applied to each
tree by delete_trees. The fuel equals the arena size, which bounds the number
of live nodes that can be freed. -/
def deleteReachable : Nat → Heap → List Nat → Heap
  | 0, h, _ => h
  | _, h, [] => h
  | fuel + 1, h, i :: rest =>
    match lookupNode h i with
    | none => deleteReachable fuel h rest
    | some n => deleteReachable fuel (eraseNode h i) (n.children ++ rest)

/-- Embeds binomial_heap::delete_trees (binomial_heap.h lines 573 to 578):
deletes every tree, clears the root list and zeroes the size. The cached
minimum pointer is left untouched, exactly as in the C++ code. -/
def delete_trees (h : Heap) : Heap :=
  { deleteReachable h.arena.length h h.trees with trees := [], size := 0 }

/-- Embeds the copy assignment operator binomial_heap::operator= applied to the
object itself (binomial_heap.h lines 317 to 325) with rhs aliasing this, the
operator having no self-assignment check: delete_trees empties the object
first, so the subsequent reads of rhs see the already emptied object; the
comparator self-assignment changes nothing, the size is copied after
delete_trees zeroed it, the copy loop iterates over the now empty root list of
rhs and so never runs its body, and set_min finishes on the empty root list. -/
def selfAssign (h : Heap) : Except Err Heap :=
  let h1 := delete_trees h
  let h2 : Heap := { h1 with compare := h1.compare, size := h1.size }
  set_min h2

/-- Collects the keys of every node reachable from the worklist, walking
children depth first; fails when a dereferenced id is not live, which is how a
forest holding a pointer to freed memory is detected. The fuel equals the
arena size, which bounds the number of pops in any well formed forest. -/
def keysFrom (h : Heap) : Nat → List Nat → Except Err (List Int)
  | _, [] => .ok []
  | 0, _ :: _ => .error .undefined
  | fuel + 1, i :: rest =>
    match lookupNode h i with
    | none => .error .undefined
    | some n => (keysFrom h fuel (n.children ++ rest)).map (fun ks => n.key :: ks)

/-- The multiset of keys held in the forest, as the list visited from the
roots; errors when the forest reaches a freed node. -/
def allKeys (h : Heap) : Except Err (List Int) :=
  keysFrom h h.arena.length h.trees

/-- The total number of nodes reachable from the roots; errors when the forest
reaches a freed node. -/
def reachableCount (h : Heap) : Except Err Nat :=
  (allKeys h).map List.length

/-- Embeds the extraction loop of heap_sort (heap_sort.h line 24) and of the
smoke test (binomial_heap_test.cpp line 23): n successive extracts, collecting
the returned keys. -/
def extractN (h : Heap) : Nat → Except Err (List Int)
  | 0 => .ok []
  | n + 1 =>
    match extract h with
    | .ok (v, h2) => (extractN h2 n).map (fun vs => v :: vs)
    | .error e => .error e

/-- Embeds heap_sort of src/heap_sort.h (lines 21 to 25) at type int with the
default comparator: the range constructor inserts every element in order, then
one extract per element overwrites the range. -/
def heap_sort (xs : List Int) : Except Err (List Int) :=
  match multi_insert H0 xs with
  | .ok h => extractN h xs.length
  | .error e => .error e

/-- C1: evaluation at the failing input. The claim states that building a heap
by inserting each element and extracting until empty yields the keys in
ascending order. On the input [5, 3] the first extraction returns 5 while 3 is
still stored, and the whole sort run fails by dereferencing freed memory on
the second extraction, because insert never updates the cached minimum pointer
when a lesser key arrives (its update test compares the new key with itself),
so extract removes the wrong node. The code thus contradicts the claim and its
own smoke test. -/
theorem c1_heap_sort_unsorted :
    (multi_insert H0 [5, 3]).bind (fun h => (extract h).map Prod.fst) = .ok 5 ∧
    heap_sort [5, 3] = .error .undefined :=
  ⟨rfl, rfl⟩

/-- C2: evaluation at the failing input. The claim states that after insert
returns, min equals the true minimum of the contained keys, the cached minimum
being updated whenever the new key is lesser. After inserting 5 and then 3 the
heap holds the keys 3 and 5 and 3 is lesser than 5 under the comparator, yet
min returns 5: the update test of insert, compare(new_tree->key, key),
compares the inserted key with itself and never fires. -/
theorem c2_insert_stale_min :
    (multi_insert H0 [5, 3]).bind minOp = .ok 5 ∧
    (multi_insert H0 [5, 3]).bind allKeys = .ok [3, 5] ∧
    intLess 3 5 = true :=
  ⟨rfl, rfl, rfl⟩

/-- C3: evaluation at the failing input. The claim states that after any
public mutating call, size equals the total number of nodes reachable from the
roots. After inserting 5 then 3 and extracting once, size is 1, but the
surviving root (node 1) still lists the freed node 0 among its children: the
extract deleted the stale cached-minimum node, a non-root child, without
detaching it. The forest is not a well formed tree of live nodes and the
reachable-node count is undefined (the traversal dereferences freed memory),
so it cannot equal size. -/
theorem c3_forest_corrupted :
    ((multi_insert H0 [5, 3]).bind extract).map (fun p => p.2.size) = .ok 1 ∧
    ((multi_insert H0 [5, 3]).bind extract).map
        (fun p => (lookupNode p.2 1).map Node.children) = .ok (some [0]) ∧
    ((multi_insert H0 [5, 3]).bind extract).map (fun p => lookupNode p.2 0) = .ok none ∧
    ((multi_insert H0 [5, 3]).bind extract).map (fun p => reachableCount p.2) =
      .ok (.error .undefined) :=
  ⟨rfl, rfl, rfl, rfl⟩

/-- C4: evaluation at the failing inputs. The claim states that extract on an
empty heap fails with EmptyHeap and that decrease_key accepts a
lesser-or-equivalent new key. In the code, extract has no emptiness check and
dereferences the null cached-minimum pointer (undefined behaviour, not the
EmptyHeap failure); min does fail on the empty heap by throwing; and
decrease_key throws invalid_argument when the new key is merely equivalent to
the current key (here decreasing the key 1 to 1), which the claim says is
accepted. -/
theorem c4_error_paths_diverge :
    extract H0 = .error .undefined ∧
    minOp H0 = .error .outOfRange ∧
    (multi_insert H0 [1]).bind (fun h => decrease_key h 0 1) = .error .invalidArgument :=
  ⟨rfl, rfl, rfl⟩

/-- C5: evaluation at the failing input. The claim states that merge is
correct for two heaps with possibly empty multisets. Merging a heap holding
the single key 1 into an empty receiver dereferences the null cached-minimum
pointer of the receiver in compare(rhs._min->key, _min->key): the merge has no
emptiness check, so the call is undefined behaviour instead of producing the
heap whose extraction sequence is [1]. -/
theorem c5_merge_empty_crash :
    (multi_insert H0 [1]).bind (fun b => mergeRef H0 b) = .error .undefined :=
  rfl

/-- C6: evaluation at the failing input. The claim states that extract makes
each child of the removed root a new root with its parent reference cleared.
Extracting from the two-element heap built by inserting 1 then 2 returns 1 and
leaves the spliced child (node 1) as the only root, but its parent field still
holds the id 0 of the removed root, whose arena cell is freed: extract never
clears the parent references of the spliced children, so they dangle. -/
theorem c6_extract_leaves_parent_dangling :
    ((multi_insert H0 [1, 2]).bind extract).map
        (fun p => (p.1, p.2.trees, (lookupNode p.2 1).map Node.parent, lookupNode p.2 0)) =
      .ok (1, [1], some (some 0), none) :=
  rfl

/-- C7: evaluation at the failing input of the specification example. The
claim states that after decrease_key the node bubbles upward by swapping
positions with greater-keyed parents and min reflects a new global minimum. In
the heap built by inserting 1, 2, 3, 4, 5, decreasing the node holding 4
(handle id 3) to 0 leaves every node in place: the loop body only reassigns
the parent pointer of the decreased node (the swap is an unimplemented
comment), the cached minimum is never updated, and min returns 1 even though
the heap now holds the key 0, which is lesser than 1. -/
theorem c7_decrease_key_no_bubble :
    ((multi_insert H0 [1, 2, 3, 4, 5]).bind (fun h => decrease_key h 3 0)).bind minOp =
      .ok 1 ∧
    ((multi_insert H0 [1, 2, 3, 4, 5]).bind (fun h => decrease_key h 3 0)).bind allKeys =
      .ok [5, 1, 2, 3, 0] ∧
    intLess 0 1 = true :=
  ⟨rfl, rfl, rfl⟩

/-- C8: evaluation at the failing input. The claim states that remove on the
node holding 2 removes that exact instance and that the removed key equals the
pre-removal key of the node. In the heap built by inserting 1 then 2 (node 0
holds 1, node 1 holds 2), remove on handle 1 first overwrites the key of node
1 with the cached minimum key 1 and then extracts the cached minimum: the
removed key is 1, not 2; node 1, which should have been removed, survives as
the only element (with its key corrupted to 1); and node 0, which held 1, is
destroyed instead. Only the size decrement by one matches the claim. -/
theorem c8_remove_wrong_instance :
    ((multi_insert H0 [1, 2]).bind (fun h => removeOp h 1)).map
        (fun p => (p.1, p.2.size, (lookupNode p.2 1).map Node.key, lookupNode p.2 0)) =
      .ok (1, 1, some 1, none) :=
  rfl

/-- C10: for every heap, self-assignment leaves a valid empty heap: the size
is zero, the root list is empty, and min fails by throwing. The copy
assignment operator calls delete_trees first, which destroys every tree,
clears the root list and zeroes the size; only then does it read the
right-hand side, which under aliasing is the already emptied object, so the
size copied is zero, the node copy loop runs zero times, and set_min nulls the
cached minimum pointer. -/
theorem c10_self_assign_empties (h : Heap) :
    (selfAssign h).map Heap.size = .ok 0 ∧
    (selfAssign h).map Heap.trees = .ok [] ∧
    (selfAssign h).bind minOp = .error .outOfRange :=
  ⟨rfl, rfl, rfl⟩

end BinHeap
